import Mathlib

/-!
Verification of the event-reconstruction and statistical-aggregation engine of
the raft-distributed-key-vault repository, as implemented in
`src/analyze_metrics.py` and `src/benchmarks/plot.py`.

Timestamps are modelled as rationals (seconds): the Python code parses ISO
strings into `datetime` values, and only their differences (in seconds, then
scaled to milliseconds) matter to the engine.
-/

set_option autoImplicit false

namespace RaftMetrics

/-- One parsed CSV row of the metrics log (`csv.DictReader` row), with the
fields the analyzer reads: `timestamp`, `event_type`, `node_id`. -/
structure Event where
  timestamp : ℚ
  event_type : String
  node_id : String
deriving Repr, DecidableEq

/-- One election interval as built by `MetricsAnalyzer.get_elections`
(`{'start': event, 'end': event-or-None}`). `end` is a Lean keyword, so the
field is named `endEv`. -/
structure Election where
  start : Event
  endEv : Option Event
deriving Repr, DecidableEq

/-- The loop body of `MetricsAnalyzer.get_elections` (src/analyze_metrics.py
lines 45-59): `current` models the `current_election` dict, `none` standing
for the falsy empty dict `{}`. On ELECTION_START the current interval is
overwritten; on ELECTION_END a closed interval is appended only when an
election is currently open. -/
def getElectionsLoop : List Event → Option Event → List Election
  | [], _ => []
  | e :: rest, current =>
    if e.event_type = "ELECTION_START" then
      getElectionsLoop rest (some e)
    else if e.event_type = "ELECTION_END" then
      match current with
      | some s => { start := s, endEv := some e } :: getElectionsLoop rest none
      | none => getElectionsLoop rest none
    else
      getElectionsLoop rest current

/-- `MetricsAnalyzer.get_elections`: start from the empty `current_election`. -/
def getElections (events : List Event) : List Election :=
  getElectionsLoop events none

/-- `MetricsAnalyzer.calculate_election_latencies` (lines 61-73): for each
returned election with a truthy `end`, append
`(end_time - start_time).total_seconds() * 1000`. -/
def calculateElectionLatencies (events : List Event) : List ℚ :=
  (getElections events).filterMap fun el =>
    el.endEv.map fun e => (e.timestamp - el.start.timestamp) * 1000

/-- One `defaultdict(int)` update step: `counts[event_type] += 1`, on an
association-list representation of the dict. -/
def bumpCount : List (String × Nat) → String → List (String × Nat)
  | [], t => [(t, 1)]
  | (k, v) :: rest, t =>
    if k = t then (k, v + 1) :: rest else (k, v) :: bumpCount rest t

/-- `MetricsAnalyzer.get_event_counts` (lines 33-38): count events by type. -/
def getEventCounts (events : List Event) : List (String × Nat) :=
  events.foldl (fun acc e => bumpCount acc e.event_type) []

/-- The part of the JSON report built by `MetricsAnalyzer.export_json_report`
(lines 134-149) that the claims concern. -/
structure JsonReport where
  event_counts : List (String × Nat)
  total_events : Nat
  elections : Nat
  election_latencies_ms : List ℚ
deriving Repr, DecidableEq

/-- `MetricsAnalyzer.export_json_report`: `event_counts` from
`get_event_counts`, `total_events = len(self.events)`, `elections` from
`get_elections`, latencies from `calculate_election_latencies`. -/
def exportJsonReport (events : List Event) : JsonReport :=
  { event_counts := getEventCounts events
    total_events := events.length
    elections := (getElections events).length
    election_latencies_ms := calculateElectionLatencies events }

example :
    getElections
      [⟨0, "ELECTION_START", "n1"⟩, ⟨2, "ELECTION_END", "n2"⟩] =
      [⟨⟨0, "ELECTION_START", "n1"⟩, some ⟨2, "ELECTION_END", "n2"⟩⟩] := by
  decide

example : getElections [⟨0, "ELECTION_START", "n1"⟩] = [] := by decide

example :
    calculateElectionLatencies
      [⟨10, "ELECTION_START", "n1"⟩, ⟨5, "ELECTION_END", "n1"⟩] = [-5000] := by
  simp [calculateElectionLatencies, getElections, getElectionsLoop]
  norm_num

/-- Number of ELECTION_START events in a stream. -/
def countStarts (evs : List Event) : Nat :=
  (evs.filter fun e => e.event_type = "ELECTION_START").length

theorem getElectionsLoop_start {e : Event} (rest : List Event)
    (cur : Option Event) (hs : e.event_type = "ELECTION_START") :
    getElectionsLoop (e :: rest) cur = getElectionsLoop rest (some e) := by
  simp [getElectionsLoop, hs]

theorem getElectionsLoop_end_some {e : Event} (rest : List Event) (s : Event)
    (hs : ¬e.event_type = "ELECTION_START")
    (he : e.event_type = "ELECTION_END") :
    getElectionsLoop (e :: rest) (some s) =
      { start := s, endEv := some e } :: getElectionsLoop rest none := by
  simp [getElectionsLoop, hs, he]

theorem getElectionsLoop_end_none {e : Event} (rest : List Event)
    (hs : ¬e.event_type = "ELECTION_START")
    (he : e.event_type = "ELECTION_END") :
    getElectionsLoop (e :: rest) none = getElectionsLoop rest none := by
  simp [getElectionsLoop, hs, he]

theorem getElectionsLoop_other {e : Event} (rest : List Event)
    (cur : Option Event) (hs : ¬e.event_type = "ELECTION_START")
    (he : ¬e.event_type = "ELECTION_END") :
    getElectionsLoop (e :: rest) cur = getElectionsLoop rest cur := by
  simp [getElectionsLoop, hs, he]

/-- Every election the loop emits is closed: `endEv` is always set at the
moment of emission, and open intervals are never appended. -/
theorem getElectionsLoop_closed (evs : List Event) (cur : Option Event) :
    ∀ el ∈ getElectionsLoop evs cur, el.endEv.isSome := by
  induction evs generalizing cur with
  | nil => simp [getElectionsLoop]
  | cons e rest ih =>
    intro el hel
    by_cases hs : e.event_type = "ELECTION_START"
    · rw [getElectionsLoop_start rest cur hs] at hel
      exact ih _ el hel
    · by_cases he : e.event_type = "ELECTION_END"
      · cases cur with
        | some s =>
          rw [getElectionsLoop_end_some rest s hs he] at hel
          rcases List.mem_cons.mp hel with h | h
          · subst h; rfl
          · exact ih _ el h
        | none =>
          rw [getElectionsLoop_end_none rest hs he] at hel
          exact ih _ el hel
      · rw [getElectionsLoop_other rest cur hs he] at hel
        exact ih _ el hel

/-- The loop emits at most one closed interval per START event, plus one for
an interval already open on entry. -/
theorem getElectionsLoop_length_le (evs : List Event) (cur : Option Event) :
    (getElectionsLoop evs cur).length ≤
      countStarts evs + (if cur.isSome then 1 else 0) := by
  induction evs generalizing cur with
  | nil => simp [getElectionsLoop, countStarts]
  | cons e rest ih =>
    by_cases hs : e.event_type = "ELECTION_START"
    · have h := ih (some e)
      rw [getElectionsLoop_start rest cur hs, countStarts,
        List.filter_cons_of_pos (by simp [hs]), List.length_cons,
        ← countStarts]
      simp only [Option.isSome_some, if_pos] at h
      cases cur <;> simp <;> omega
    · have hcnt : countStarts (e :: rest) = countStarts rest := by
        rw [countStarts, List.filter_cons_of_neg (by simp [hs]), ← countStarts]
      rw [hcnt]
      by_cases he : e.event_type = "ELECTION_END"
      · cases cur with
        | none =>
          rw [getElectionsLoop_end_none rest hs he]
          exact ih none
        | some s =>
          rw [getElectionsLoop_end_some rest s hs he, List.length_cons]
          have h := ih none
          simp at h ⊢
          omega
      · rw [getElectionsLoop_other rest cur hs he]
        exact ih cur

/-- Processing only the ELECTION_START/ELECTION_END subsequence gives the
same result: all other event types fall through to the final `else` branch,
leaving the loop state untouched. -/
theorem getElectionsLoop_filter (evs : List Event) (cur : Option Event) :
    getElectionsLoop
        (evs.filter fun e =>
          e.event_type = "ELECTION_START" ∨ e.event_type = "ELECTION_END")
        cur =
      getElectionsLoop evs cur := by
  induction evs generalizing cur with
  | nil => rfl
  | cons e rest ih =>
    by_cases hs : e.event_type = "ELECTION_START"
    · rw [List.filter_cons_of_pos (by simp [hs]),
        getElectionsLoop_start _ cur hs, getElectionsLoop_start _ cur hs]
      exact ih _
    · by_cases he : e.event_type = "ELECTION_END"
      · rw [List.filter_cons_of_pos (by simp [he])]
        cases cur with
        | none =>
          rw [getElectionsLoop_end_none _ hs he,
            getElectionsLoop_end_none _ hs he]
          exact ih _
        | some s =>
          rw [getElectionsLoop_end_some _ s hs he,
            getElectionsLoop_end_some _ s hs he, ih none]
      · rw [List.filter_cons_of_neg (by simp [hs, he]),
          getElectionsLoop_other _ cur hs he]
        exact ih _

/-- On a timestamp-monotone stream, any interval the loop closes has
`endEv.timestamp ≥ start.timestamp`, provided the interval already open on
entry started no later than the first remaining event. -/
theorem getElectionsLoop_mono (evs : List Event) (cur : Option Event)
    (hchain : evs.Chain' fun a b => a.timestamp ≤ b.timestamp)
    (hcur : ∀ s, cur = some s → ∀ x, evs.head? = some x →
      s.timestamp ≤ x.timestamp) :
    ∀ el ∈ getElectionsLoop evs cur, ∀ e, el.endEv = some e →
      el.start.timestamp ≤ e.timestamp := by
  induction evs generalizing cur with
  | nil => simp [getElectionsLoop]
  | cons e rest ih =>
    obtain ⟨hhead, htail⟩ := List.chain'_cons'.mp hchain
    intro el hel f hf
    by_cases hs : e.event_type = "ELECTION_START"
    · rw [getElectionsLoop_start rest cur hs] at hel
      refine ih (some e) htail ?_ el hel f hf
      intro s hsome x hx
      cases hsome
      exact hhead x hx
    · by_cases he : e.event_type = "ELECTION_END"
      · cases cur with
        | some s =>
          rw [getElectionsLoop_end_some rest s hs he] at hel
          rcases List.mem_cons.mp hel with h | h
          · subst h
            simp only at hf
            rcases hf with ⟨⟩
            exact hcur s rfl _ rfl
          · exact ih none htail (by simp) el h f hf
        | none =>
          rw [getElectionsLoop_end_none rest hs he] at hel
          exact ih none htail (by simp) el hel f hf
      · rw [getElectionsLoop_other rest cur hs he] at hel
        refine ih cur htail ?_ el hel f hf
        intro s hsome x hx
        have h1 := hcur s hsome e rfl
        exact h1.trans (hhead x hx)

/-- Appending to the count dictionary adds exactly one to the sum of counts. -/
theorem bumpCount_sum (counts : List (String × Nat)) (t : String) :
    ((bumpCount counts t).map Prod.snd).sum =
      (counts.map Prod.snd).sum + 1 := by
  induction counts with
  | nil => simp [bumpCount]
  | cons p rest ih =>
    obtain ⟨k, v⟩ := p
    by_cases h : k = t <;> simp [bumpCount, h, ih] <;> omega

/-- Folding the counting step over a stream adds the stream length to the
sum of counts. -/
theorem foldl_bumpCount_sum (evs : List Event) (acc : List (String × Nat)) :
    (((evs.foldl (fun a e => bumpCount a e.event_type) acc).map
        Prod.snd)).sum = (acc.map Prod.snd).sum + evs.length := by
  induction evs generalizing acc with
  | nil => simp
  | cons e rest ih =>
    simp only [List.foldl_cons, ih, bumpCount_sum, List.length_cons]
    omega

/-- A `filterMap` whose function is some-valued on every element of the list
preserves length. -/
theorem length_filterMap_of_isSome {α β : Type _} (f : α → Option β)
    (l : List α) (h : ∀ a ∈ l, (f a).isSome) :
    (l.filterMap f).length = l.length := by
  induction l with
  | nil => rfl
  | cons a t ih =>
    obtain ⟨b, hb⟩ := Option.isSome_iff_exists.mp (h a (List.mem_cons_self a t))
    rw [List.filterMap_cons, hb, List.length_cons, List.length_cons,
      ih fun x hx => h x (List.mem_cons_of_mem _ hx)]

/-- C1 (counterexample): `get_elections` pairs a START with the next END
without comparing timestamps. The stream START@10s, END@5s yields a closed
interval whose end timestamp is earlier than its start timestamp, and its
negative latency (-5000 ms) is kept by `calculate_election_latencies`, not
discarded. -/
theorem c1_out_of_order_pair_kept :
    getElections
        [⟨10, "ELECTION_START", "n1"⟩, ⟨5, "ELECTION_END", "n1"⟩] =
      [⟨⟨10, "ELECTION_START", "n1"⟩, some ⟨5, "ELECTION_END", "n1"⟩⟩] ∧
    (⟨5, "ELECTION_END", "n1"⟩ : Event).timestamp <
      (⟨10, "ELECTION_START", "n1"⟩ : Event).timestamp ∧
    calculateElectionLatencies
        [⟨10, "ELECTION_START", "n1"⟩, ⟨5, "ELECTION_END", "n1"⟩] =
      [-5000] := by
  refine ⟨by decide, by norm_num, ?_⟩
  simp [calculateElectionLatencies, getElections, getElectionsLoop]
  norm_num

/-- C1 (amended): when the event stream's timestamps are non-decreasing —
the spec's stated precondition for reconstruction to be meaningful — every
closed interval emitted by `get_elections` has end timestamp ≥ start
timestamp. (Without that precondition an out-of-order pair is emitted with
negative latency rather than discarded.) -/
theorem c1_monotone_stream_end_ge_start (evs : List Event)
    (hchain : evs.Chain' fun a b => a.timestamp ≤ b.timestamp) :
    ∀ el ∈ getElections evs, ∀ e, el.endEv = some e →
      el.start.timestamp ≤ e.timestamp :=
  getElectionsLoop_mono evs none hchain (by simp)

/-- Witness for C1 (amended) on the concrete monotone stream
START@0s, END@2s. -/
theorem c1_monotone_stream_end_ge_start_witness :
    (⟨⟨0, "ELECTION_START", "n1"⟩, some ⟨2, "ELECTION_END", "n1"⟩⟩ :
        Election).start.timestamp ≤
      (⟨2, "ELECTION_END", "n1"⟩ : Event).timestamp :=
  c1_monotone_stream_end_ge_start
    [⟨0, "ELECTION_START", "n1"⟩, ⟨2, "ELECTION_END", "n1"⟩]
    (by constructor <;> norm_num)
    ⟨⟨0, "ELECTION_START", "n1"⟩, some ⟨2, "ELECTION_END", "n1"⟩⟩
    (by decide) _ rfl

/-- C2 (counterexample): an interval still open at end-of-stream
(START@0s and nothing else) and an interval abandoned by a fresh START are
both dropped from the output of `get_elections`: no open interval with
`end = None` ever appears. -/
theorem c2_open_interval_not_emitted :
    getElections [⟨0, "ELECTION_START", "n1"⟩] = [] ∧
    getElections
        [⟨0, "ELECTION_START", "n1"⟩, ⟨1, "ELECTION_START", "n2"⟩,
          ⟨2, "ELECTION_END", "n2"⟩] =
      [⟨⟨1, "ELECTION_START", "n2"⟩, some ⟨2, "ELECTION_END", "n2"⟩⟩] := by
  decide

/-- C2 (amended): intervals left open at end-of-stream, and intervals
abandoned when a new ELECTION_START arrives, do not appear in the output of
`get_elections` at all — every returned interval is closed (`end` present),
so open intervals contribute nothing to latency computation. -/
theorem c2_output_contains_only_closed (evs : List Event) :
    ∀ el ∈ getElections evs, el.endEv.isSome :=
  getElectionsLoop_closed evs none

/-- Witness for C2 (amended) on the concrete stream START@0s, END@2s. -/
theorem c2_output_contains_only_closed_witness :
    ((⟨⟨0, "ELECTION_START", "n1"⟩, some ⟨2, "ELECTION_END", "n1"⟩⟩ :
        Election)).endEv.isSome :=
  c2_output_contains_only_closed
    [⟨0, "ELECTION_START", "n1"⟩, ⟨2, "ELECTION_END", "n1"⟩]
    ⟨⟨0, "ELECTION_START", "n1"⟩, some ⟨2, "ELECTION_END", "n1"⟩⟩
    (by decide)

/-- C3 (counterexample): a START and END with equal timestamps yield a
closed interval with zero latency, and `calculate_election_latencies`
returns `[0]` — the non-positive value is included in the returned list,
not excluded, and no exclusion counter exists anywhere in the analyzer. -/
theorem c3_zero_latency_included :
    calculateElectionLatencies
        [⟨0, "ELECTION_START", "n1"⟩, ⟨0, "ELECTION_END", "n1"⟩] = [0] := by
  simp [calculateElectionLatencies, getElections, getElectionsLoop]

/-- C3 (amended): `calculate_election_latencies` includes the latency of
every closed interval unconditionally — the returned list has exactly one
entry per interval returned by `get_elections`, whatever the sign of the
latency; nothing is excluded and no counter is kept. -/
theorem c3_all_closed_latencies_included (evs : List Event) :
    (calculateElectionLatencies evs).length = (getElections evs).length := by
  apply length_filterMap_of_isSome
  intro el hel
  obtain ⟨e, he⟩ := Option.isSome_iff_exists.mp
    (getElectionsLoop_closed evs none el hel)
  simp [he]

/-- C8: the number of closed intervals returned by `get_elections` never
exceeds the number of ELECTION_START events, and a lone ELECTION_END with no
preceding ELECTION_START produces zero intervals. -/
theorem c8_closed_le_starts :
    (∀ evs : List Event, (getElections evs).length ≤ countStarts evs) ∧
    (∀ e : Event, e.event_type = "ELECTION_END" → getElections [e] = []) := by
  constructor
  · intro evs
    have h := getElectionsLoop_length_le evs none
    simpa [getElections] using h
  · intro e he
    have hs : ¬e.event_type = "ELECTION_START" := by rw [he]; decide
    rw [getElections, getElectionsLoop_end_none [] hs he]
    rfl

/-- Witness for C8 on the concrete lone-END stream END@0s. -/
theorem c8_closed_le_starts_witness :
    getElections [⟨0, "ELECTION_END", "n1"⟩] = [] ∧
    (getElections [⟨0, "ELECTION_END", "n1"⟩]).length ≤
      countStarts [⟨0, "ELECTION_END", "n1"⟩] :=
  ⟨c8_closed_le_starts.2 _ rfl, c8_closed_le_starts.1 _⟩

/-- C9: in the JSON report built by `export_json_report`, the values of
`event_counts` (from `get_event_counts`) sum to `total_events`: each event
is counted in exactly one `event_type` bucket. -/
theorem c9_event_counts_sum_total (evs : List Event) :
    (((exportJsonReport evs).event_counts).map Prod.snd).sum =
      (exportJsonReport evs).total_events := by
  show ((getEventCounts evs).map Prod.snd).sum = evs.length
  rw [getEventCounts]
  simpa using foldl_bumpCount_sum evs []

/-- C10: `get_elections` depends only on the subsequence of
ELECTION_START/ELECTION_END events: filtering every other event type out of
the stream leaves the result unchanged, so any two streams with the same
election subsequence (e.g. differing by inserted or deleted TERM_CHANGE,
WRITE_REQUEST, … events) produce the same interval list. -/
theorem c10_elections_frame :
    (∀ evs : List Event,
      getElections (evs.filter fun e =>
        e.event_type = "ELECTION_START" ∨ e.event_type = "ELECTION_END") =
        getElections evs) ∧
    (∀ evs1 evs2 : List Event,
      (evs1.filter fun e =>
        e.event_type = "ELECTION_START" ∨ e.event_type = "ELECTION_END") =
        (evs2.filter fun e =>
          e.event_type = "ELECTION_START" ∨ e.event_type = "ELECTION_END") →
      getElections evs1 = getElections evs2) := by
  have h1 : ∀ evs : List Event,
      getElections (evs.filter fun e =>
        e.event_type = "ELECTION_START" ∨ e.event_type = "ELECTION_END") =
        getElections evs :=
    fun evs => getElectionsLoop_filter evs none
  exact ⟨h1, fun evs1 evs2 h => by rw [← h1 evs1, ← h1 evs2, h]⟩

/-- Witness for C10: inserting a WRITE_REQUEST between a START and its END
leaves the interval list unchanged. -/
theorem c10_elections_frame_witness :
    getElections
        [⟨0, "ELECTION_START", "n1"⟩, ⟨1, "WRITE_REQUEST", "n2"⟩,
          ⟨2, "ELECTION_END", "n1"⟩] =
      getElections [⟨0, "ELECTION_START", "n1"⟩, ⟨2, "ELECTION_END", "n1"⟩] :=
  c10_elections_frame.2 _ _ (by decide)

end RaftMetrics

namespace BenchPlot

/-- `np.sort` on a one-dimensional array of latency values. -/
def npSort (xs : List ℚ) : List ℚ :=
  xs.insertionSort (· ≤ ·)

/-- `np.percentile(a, q)` with the default linear-interpolation method:
on the sorted data of length n, the virtual rank is `q/100 * (n-1)` and the
result interpolates between the values at its floor and ceil indices.
`np.percentile` raises on an empty array, modelled as `none`. -/
def npPercentile (xs : List ℚ) (q : ℚ) : Option ℚ :=
  match npSort xs with
  | [] => none
  | y :: ys =>
    let s := y :: ys
    let n := s.length
    let pos : ℚ := q / 100 * ((n : ℚ) - 1)
    let lo : ℕ := (⌊pos⌋).toNat
    let hi : ℕ := (⌈pos⌉).toNat
    some (s.getD lo 0 + (pos - (lo : ℚ)) * (s.getD hi 0 - s.getD lo 0))

/-- Python's `round(x, 3)` (banker's rounding at the half-way tie). -/
def pyRound3 (x : ℚ) : ℚ :=
  let y := x * 1000
  let f := ⌊y⌋
  let r : ℤ :=
    if y - f < 1 / 2 then f
    else if y - f > 1 / 2 then f + 1
    else if f % 2 = 0 then f else f + 1
  (r : ℚ) / 1000

/-- One row of the percentiles table appended by `plot_latency_cdf`
(src/benchmarks/plot.py lines 109-121). -/
structure PercentileRow where
  scenario : String
  request_group : String
  p50_ms : ℚ
  p90_ms : ℚ
  p95_ms : ℚ
  p99_ms : ℚ
deriving Repr, DecidableEq

/-- The per-(scenario, request-group) body of `plot_latency_cdf`'s inner
loop: each file parses to `some` value array or fails (`except: continue`,
modelled as `none`); the parsed arrays are concatenated
(`np.concatenate(all_vals)`) and the four percentiles are computed over the
merged array. `if not all_vals: continue` (all files failed) is modelled as
`none`, as is `np.percentile` raising on an empty merged array. -/
def groupRow (scenario req : String) (files : List (Option (List ℚ))) :
    Option PercentileRow :=
  let all_vals := files.filterMap id
  if all_vals.isEmpty then none
  else
    let vals_concat := all_vals.flatten
    match npPercentile vals_concat 50, npPercentile vals_concat 90,
        npPercentile vals_concat 95, npPercentile vals_concat 99 with
    | some p50, some p90, some p95, some p99 =>
      some ⟨scenario, req, pyRound3 p50, pyRound3 p90, pyRound3 p95,
        pyRound3 p99⟩
    | _, _, _, _ => none

/-- `pandas` mean of a group's values (groups are nonempty). -/
def pdMean (xs : List ℚ) : ℚ :=
  xs.sum / xs.length

/-- Sum of squared deviations from the mean. -/
def sumSqDev (xs : List ℚ) : ℚ :=
  (xs.map fun x => (x - pdMean xs) ^ 2).sum

/-- The variance underlying `pandas`' `std` aggregation: normalized by
`n - 1` (the default `ddof=1`); for `n ≤ 1` the result is NaN, modelled as
`none`. -/
def pdVar (xs : List ℚ) : Option ℚ :=
  if xs.length ≤ 1 then none else some (sumSqDev xs / ((xs.length : ℚ) - 1))

/-- `pandas`' `std` aggregation used for `std_throughput` /
`throughput_std`: square root of the `ddof=1` variance, NaN (`none`) for a
single-sample group. -/
noncomputable def pdStd (xs : List ℚ) : Option ℝ :=
  (pdVar xs).map fun v => Real.sqrt (v : ℝ)

/-- The 95% confidence-interval half-width lambda of
`plot_throughput_vs_requests` (line 38) and `write_results_md` (line 208):
`stats.t.ppf(0.975, n-1) * std / n**0.5 if n > 1 else 0.0`. The scipy
Student-t quantile function is modelled abstractly as `tppf975 : df ↦
stats.t.ppf(0.975, df)`. -/
noncomputable def ci95 (tppf975 : ℕ → ℝ) (n : ℕ) (std : ℝ) : ℝ :=
  if 1 < n then tppf975 (n - 1) * std / Real.sqrt (n : ℝ) else 0

/-- Evaluation rule for `npPercentile`: with the sorted data, the virtual
rank, the two bracketing indices, the two bracketed values and the
interpolation all computed, the percentile is the interpolated value. -/
theorem npPercentile_eval (xs : List ℚ) (q pos : ℚ) (lo hi : ℕ)
    (a b res : ℚ) (hne : npSort xs ≠ [])
    (hpos : q / 100 * (((npSort xs).length : ℚ) - 1) = pos)
    (hlo : (⌊pos⌋).toNat = lo) (hhi : (⌈pos⌉).toNat = hi)
    (ha : (npSort xs).getD lo 0 = a) (hb : (npSort xs).getD hi 0 = b)
    (hres : a + (pos - (lo : ℚ)) * (b - a) = res) :
    npPercentile xs q = some res := by
  cases hs : npSort xs with
  | nil => exact absurd hs hne
  | cons y ys =>
    rw [hs] at hpos ha hb
    simp only [npPercentile, hs]
    rw [hpos, hlo, hhi, ha, hb, hres]

/-- C6: `np.percentile` with the default method interpolates linearly
between the closest ranks: on sorted data of length n the result is read at
virtual rank `q/100 * (n-1)`, interpolating between the floor and ceil
indices; for `[1,…,10]`, p50 = 5.5 and p90 = 9.1. -/
theorem c6_percentile_linear_interpolation :
    (∀ (xs : List ℚ) (q : ℚ), xs ≠ [] →
      npPercentile xs q =
        some ((npSort xs).getD
            (⌊q / 100 * (((npSort xs).length : ℚ) - 1)⌋).toNat 0 +
          (q / 100 * (((npSort xs).length : ℚ) - 1) -
            (((⌊q / 100 * (((npSort xs).length : ℚ) - 1)⌋).toNat : ℕ) : ℚ)) *
          ((npSort xs).getD
              (⌈q / 100 * (((npSort xs).length : ℚ) - 1)⌉).toNat 0 -
            (npSort xs).getD
              (⌊q / 100 * (((npSort xs).length : ℚ) - 1)⌋).toNat 0))) ∧
    npPercentile [1, 2, 3, 4, 5, 6, 7, 8, 9, 10] 50 = some (11 / 2) ∧
    npPercentile [1, 2, 3, 4, 5, 6, 7, 8, 9, 10] 90 = some (91 / 10) := by
  have hsort10 : npSort [1, 2, 3, 4, 5, 6, 7, 8, 9, 10] =
      [1, 2, 3, 4, 5, 6, 7, 8, 9, 10] :=
    List.Sorted.insertionSort_eq (by norm_num [List.sorted_cons])
  refine ⟨?_, ?_, ?_⟩
  · intro xs q hne
    refine npPercentile_eval xs q _ _ _ _ _ _ ?_ rfl rfl rfl rfl rfl rfl
    intro h
    have := List.length_insertionSort (r := (· ≤ ·)) xs
    rw [show xs.insertionSort (· ≤ ·) = npSort xs from rfl, h] at this
    exact hne (List.length_eq_zero.mp this.symm)
  · refine npPercentile_eval _ _ (9 / 2) 4 5 5 6 _ ?_ ?_ ?_ ?_ ?_ ?_ ?_
    · rw [hsort10]; simp
    · rw [hsort10]; norm_num
    · rw [show ⌊(9 / 2 : ℚ)⌋ = 4 by norm_num [Int.floor_eq_iff]]; rfl
    · rw [show ⌈(9 / 2 : ℚ)⌉ = 5 by norm_num [Int.ceil_eq_iff]]; rfl
    · rw [hsort10]; rfl
    · rw [hsort10]; rfl
    · norm_num
  · refine npPercentile_eval _ _ (81 / 10) 8 9 9 10 _ ?_ ?_ ?_ ?_ ?_ ?_ ?_
    · rw [hsort10]; simp
    · rw [hsort10]; norm_num
    · rw [show ⌊(81 / 10 : ℚ)⌋ = 8 by norm_num [Int.floor_eq_iff]]; rfl
    · rw [show ⌈(81 / 10 : ℚ)⌉ = 9 by norm_num [Int.ceil_eq_iff]]; rfl
    · rw [hsort10]; rfl
    · rw [hsort10]; rfl
    · norm_num

/-- Witness for C6 on the singleton array `[5]` at q = 50. -/
theorem c6_percentile_linear_interpolation_witness :
    npPercentile [(5 : ℚ)] 50 =
      some ((npSort [(5 : ℚ)]).getD
          (⌊(50 : ℚ) / 100 * (((npSort [(5 : ℚ)]).length : ℚ) - 1)⌋).toNat 0 +
        ((50 : ℚ) / 100 * (((npSort [(5 : ℚ)]).length : ℚ) - 1) -
          (((⌊(50 : ℚ) / 100 *
              (((npSort [(5 : ℚ)]).length : ℚ) - 1)⌋).toNat : ℕ) : ℚ)) *
        ((npSort [(5 : ℚ)]).getD
            (⌈(50 : ℚ) / 100 * (((npSort [(5 : ℚ)]).length : ℚ) - 1)⌉).toNat
            0 -
          (npSort [(5 : ℚ)]).getD
            (⌊(50 : ℚ) / 100 *
              (((npSort [(5 : ℚ)]).length : ℚ) - 1)⌋).toNat 0)) :=
  c6_percentile_linear_interpolation.1 [(5 : ℚ)] 50 (by decide)

/-- C5: the 95% confidence-interval half-width is the Student-t critical
value at the two-sided 0.975 quantile with n−1 degrees of freedom times
`std / sqrt n` whenever n > 1, and 0 whenever n ≤ 1; with the scipy value
t(0.975, df=4) ≈ 2.7764451, a group of 5 samples with stddev 10 gets a
half-width ≈ 12.41 (strictly between 12.40 and 12.42). -/
theorem c5_ci95_formula :
    (∀ (tppf : ℕ → ℝ) (n : ℕ) (std : ℝ), 1 < n →
      ci95 tppf n std = tppf (n - 1) * std / Real.sqrt (n : ℝ)) ∧
    (∀ (tppf : ℕ → ℝ) (n : ℕ) (std : ℝ), n ≤ 1 → ci95 tppf n std = 0) ∧
    (∀ tppf : ℕ → ℝ, tppf 4 = 2.7764451 →
      12.40 < ci95 tppf 5 10 ∧ ci95 tppf 5 10 < 12.42) := by
  refine ⟨?_, ?_, ?_⟩
  · intro tppf n std h
    rw [ci95, if_pos h]
  · intro tppf n std h
    rw [ci95, if_neg (by omega)]
  · intro tppf h
    have hpos : (0 : ℝ) < Real.sqrt 5 := Real.sqrt_pos.mpr (by norm_num)
    have hsq : Real.sqrt 5 ^ 2 = 5 := Real.sq_sqrt (by norm_num)
    have hub : Real.sqrt 5 < 2.2361 := by nlinarith [Real.sqrt_nonneg (5 : ℝ)]
    have hlb : (2.236 : ℝ) < Real.sqrt 5 := by
      nlinarith [Real.sqrt_nonneg (5 : ℝ)]
    rw [ci95, if_pos (by norm_num)]
    norm_num [h]
    constructor
    · rw [lt_div_iff₀ hpos]
      nlinarith
    · rw [div_lt_iff₀ hpos]
      nlinarith

/-- Witness for C5 at tppf = const 2.7764451, n = 5, std = 10 (and the
degenerate group n = 1). -/
theorem c5_ci95_formula_witness :
    ci95 (fun _ => (2.7764451 : ℝ)) 5 10 =
      (fun _ => (2.7764451 : ℝ)) (5 - 1) * 10 / Real.sqrt ((5 : ℕ) : ℝ) ∧
    ci95 (fun _ => (2.7764451 : ℝ)) 1 10 = 0 ∧
    12.40 < ci95 (fun _ => (2.7764451 : ℝ)) 5 10 :=
  ⟨c5_ci95_formula.1 _ 5 10 (by norm_num),
   c5_ci95_formula.2.1 _ 1 10 (by norm_num),
   (c5_ci95_formula.2.2 _ rfl).1⟩

/-- C7 (counterexample): `pandas.std` of a single-sample group is NaN
(modelled as `none`), not 0 — the summary tables carry no value for such a
group's standard deviation. -/
theorem c7_single_sample_std_nan :
    pdStd [(100 : ℚ)] = none ∧ pdStd [(100 : ℚ)] ≠ some 0 := by
  constructor <;> simp [pdStd, pdVar]

/-- C7 (amended): the grouped aggregator's standard deviation is the square
root of the sum of squared deviations from the mean divided by n−1 (the
unbiased `ddof=1` estimator) for every group of n ≥ 2 samples — concretely,
the variance of `[1,2,3]` is 1, not the biased 2/3 — while a group of
exactly one sample has stddev NaN (`none`), not 0. -/
theorem c7_std_unbiased_estimator :
    (∀ xs : List ℚ, 2 ≤ xs.length →
      pdStd xs = some (Real.sqrt
        ((((xs.map fun x => (x - xs.sum / (xs.length : ℚ)) ^ 2).sum) /
          ((xs.length : ℚ) - 1) : ℚ) : ℝ))) ∧
    (∀ x : ℚ, pdStd [x] = none) ∧
    pdVar [1, 2, 3] = some 1 := by
  refine ⟨?_, ?_, ?_⟩
  · intro xs h
    rw [pdStd, pdVar, if_neg (by omega)]
    simp [sumSqDev, pdMean]
  · intro x
    simp [pdStd, pdVar]
  · norm_num [pdVar, sumSqDev, pdMean]

/-- Witness for C7 (amended) on the concrete groups `[1,2,3]` and `[100]`. -/
theorem c7_std_unbiased_estimator_witness :
    pdStd [(1 : ℚ), 2, 3] = some (Real.sqrt
      (((([(1 : ℚ), 2, 3].map fun x =>
          (x - [(1 : ℚ), 2, 3].sum / (([(1 : ℚ), 2, 3].length : ℕ) : ℚ)) ^ 2).sum) /
        ((([(1 : ℚ), 2, 3].length : ℕ) : ℚ) - 1) : ℚ) : ℝ)) ∧
    pdStd [(100 : ℚ)] = none :=
  ⟨c7_std_unbiased_estimator.1 [(1 : ℚ), 2, 3] (by norm_num),
   c7_std_unbiased_estimator.2.1 100⟩

/-- C4: the percentile row of `plot_latency_cdf` is computed over the union
of all successfully parsed files of the group: splitting the same values
across two files changes nothing, files that fail to parse are skipped, and
for the two 3-value files `[1,2,3]` and `[4,5,6]` the percentiles are those
of the merged 6-value array (p50 = 3.5), not of either file alone (whose
own p50s are 2 and 5). -/
theorem c4_percentiles_over_union :
    (∀ (s r : String) (v1 v2 : List ℚ),
      groupRow s r [some v1, some v2] = groupRow s r [some (v1 ++ v2)]) ∧
    (∀ (s r : String) (files : List (Option (List ℚ))),
      groupRow s r (none :: files) = groupRow s r files) ∧
    groupRow "kv" "req100" [some [1, 2, 3], some [4, 5, 6]] =
      some ⟨"kv", "req100", 7 / 2, 11 / 2, 23 / 4, 119 / 20⟩ ∧
    npPercentile [1, 2, 3] 50 = some 2 ∧
    npPercentile [4, 5, 6] 50 = some 5 := by
  have hsort6 : npSort [1, 2, 3, 4, 5, 6] = [1, 2, 3, 4, 5, 6] :=
    List.Sorted.insertionSort_eq (by norm_num [List.sorted_cons])
  have h50 : npPercentile [1, 2, 3, 4, 5, 6] 50 = some (7 / 2) := by
    refine npPercentile_eval _ _ (5 / 2) 2 3 3 4 _ ?_ ?_ ?_ ?_ ?_ ?_ ?_
    · rw [hsort6]; simp
    · rw [hsort6]; norm_num
    · rw [show ⌊(5 / 2 : ℚ)⌋ = 2 by norm_num [Int.floor_eq_iff]]; rfl
    · rw [show ⌈(5 / 2 : ℚ)⌉ = 3 by norm_num [Int.ceil_eq_iff]]; rfl
    · rw [hsort6]; rfl
    · rw [hsort6]; rfl
    · norm_num
  have h90 : npPercentile [1, 2, 3, 4, 5, 6] 90 = some (11 / 2) := by
    refine npPercentile_eval _ _ (9 / 2) 4 5 5 6 _ ?_ ?_ ?_ ?_ ?_ ?_ ?_
    · rw [hsort6]; simp
    · rw [hsort6]; norm_num
    · rw [show ⌊(9 / 2 : ℚ)⌋ = 4 by norm_num [Int.floor_eq_iff]]; rfl
    · rw [show ⌈(9 / 2 : ℚ)⌉ = 5 by norm_num [Int.ceil_eq_iff]]; rfl
    · rw [hsort6]; rfl
    · rw [hsort6]; rfl
    · norm_num
  have h95 : npPercentile [1, 2, 3, 4, 5, 6] 95 = some (23 / 4) := by
    refine npPercentile_eval _ _ (19 / 4) 4 5 5 6 _ ?_ ?_ ?_ ?_ ?_ ?_ ?_
    · rw [hsort6]; simp
    · rw [hsort6]; norm_num
    · rw [show ⌊(19 / 4 : ℚ)⌋ = 4 by norm_num [Int.floor_eq_iff]]; rfl
    · rw [show ⌈(19 / 4 : ℚ)⌉ = 5 by norm_num [Int.ceil_eq_iff]]; rfl
    · rw [hsort6]; rfl
    · rw [hsort6]; rfl
    · norm_num
  have h99 : npPercentile [1, 2, 3, 4, 5, 6] 99 = some (119 / 20) := by
    refine npPercentile_eval _ _ (99 / 20) 4 5 5 6 _ ?_ ?_ ?_ ?_ ?_ ?_ ?_
    · rw [hsort6]; simp
    · rw [hsort6]; norm_num
    · rw [show ⌊(99 / 20 : ℚ)⌋ = 4 by norm_num [Int.floor_eq_iff]]; rfl
    · rw [show ⌈(99 / 20 : ℚ)⌉ = 5 by norm_num [Int.ceil_eq_iff]]; rfl
    · rw [hsort6]; rfl
    · rw [hsort6]; rfl
    · norm_num
  have hr50 : pyRound3 (7 / 2) = 7 / 2 := by
    rw [pyRound3]
    norm_num [show ⌊(3500 : ℚ)⌋ = 3500 by norm_num [Int.floor_eq_iff]]
  have hr90 : pyRound3 (11 / 2) = 11 / 2 := by
    rw [pyRound3]
    norm_num [show ⌊(5500 : ℚ)⌋ = 5500 by norm_num [Int.floor_eq_iff]]
  have hr95 : pyRound3 (23 / 4) = 23 / 4 := by
    rw [pyRound3]
    norm_num [show ⌊(5750 : ℚ)⌋ = 5750 by norm_num [Int.floor_eq_iff]]
  have hr99 : pyRound3 (119 / 20) = 119 / 20 := by
    rw [pyRound3]
    norm_num [show ⌊(5950 : ℚ)⌋ = 5950 by norm_num [Int.floor_eq_iff]]
  refine ⟨?_, ?_, ?_, ?_, ?_⟩
  · intro s r v1 v2
    have h1 : List.filterMap id [some v1, some v2] = [v1, v2] := rfl
    have h2 : List.filterMap id [some (v1 ++ v2)] = [v1 ++ v2] := rfl
    have h3 : ([v1, v2] : List (List ℚ)).flatten = v1 ++ v2 := by simp
    have h4 : ([v1 ++ v2] : List (List ℚ)).flatten = v1 ++ v2 := by simp
    simp only [groupRow, h1, h2, h3, h4, List.isEmpty_cons]
  · intro s r files
    rfl
  · have hfm : List.filterMap id [some [1, 2, 3], some [4, 5, 6]] =
        ([[1, 2, 3], [4, 5, 6]] : List (List ℚ)) := rfl
    have hflat : ([[1, 2, 3], [4, 5, 6]] : List (List ℚ)).flatten =
        [1, 2, 3, 4, 5, 6] := rfl
    simp only [groupRow, hfm, hflat, List.isEmpty_cons, h50, h90, h95, h99,
      hr50, hr90, hr95, hr99]
    rfl
  · have hsort3 : npSort [1, 2, 3] = [1, 2, 3] :=
      List.Sorted.insertionSort_eq (by norm_num [List.sorted_cons])
    refine npPercentile_eval _ _ 1 1 1 2 2 _ ?_ ?_ ?_ ?_ ?_ ?_ ?_
    · rw [hsort3]; simp
    · rw [hsort3]; norm_num
    · rw [show ⌊(1 : ℚ)⌋ = 1 by norm_num [Int.floor_eq_iff]]; rfl
    · rw [show ⌈(1 : ℚ)⌉ = 1 by norm_num [Int.ceil_eq_iff]]; rfl
    · rw [hsort3]; rfl
    · rw [hsort3]; rfl
    · norm_num
  · have hsort3 : npSort [4, 5, 6] = [4, 5, 6] :=
      List.Sorted.insertionSort_eq (by norm_num [List.sorted_cons])
    refine npPercentile_eval _ _ 1 1 1 5 5 _ ?_ ?_ ?_ ?_ ?_ ?_ ?_
    · rw [hsort3]; simp
    · rw [hsort3]; norm_num
    · rw [show ⌊(1 : ℚ)⌋ = 1 by norm_num [Int.floor_eq_iff]]; rfl
    · rw [show ⌈(1 : ℚ)⌉ = 1 by norm_num [Int.ceil_eq_iff]]; rfl
    · rw [hsort3]; rfl
    · rw [hsort3]; rfl
    · norm_num

end BenchPlot
